import Mathlib

/-!
# Verification of `cifscloak.py`

A shallow embedding, in Lean 4, of the mount-orchestration program
`src/cifscloak.py`, together with theorems settling the frozen claims about
its specification.

Modelling conventions:
* Python strings are Lean `String` (sequences of Unicode scalar values);
  byte strings are `List Nat` with each element a byte value.
* The external world (the `subprocess` launched by `execute`) is a
  parameter `runner : Nat → CmdResult` giving the result of the n-th
  subprocess launch of the invocation.
* Mutations of `self.status` are explicit state passing on a `Status`
  structure; sleeps and subprocess launches are recorded in logs so that
  theorems can speak about them.
* A Python exception that escapes `execute` (the `AttributeError` raised by
  `regex.search(...).group(1)` when the search fails) is modelled by the
  `Except.error` branch, carrying the state at the moment of the raise.
-/

namespace Cifscloak

/-! ## UTF-8 (model of Python `bytes(s, encoding='utf-8')` / `bytes.decode('utf-8')`) -/

/-- UTF-8 encoding of a single Unicode scalar value, as byte values. -/
def utf8EncodeChar (c : Char) : List Nat :=
  let n := c.toNat
  if n < 0x80 then [n]
  else if n < 0x800 then [0xC0 + n / 0x40, 0x80 + n % 0x40]
  else if n < 0x10000 then
    [0xE0 + n / 0x1000, 0x80 + n / 0x40 % 0x40, 0x80 + n % 0x40]
  else
    [0xF0 + n / 0x40000, 0x80 + n / 0x1000 % 0x40, 0x80 + n / 0x40 % 0x40,
      0x80 + n % 0x40]

/-- Model of Python `bytes(plain, encoding='utf-8')`. -/
def utf8Encode (s : String) : List Nat :=
  s.data.flatMap utf8EncodeChar

/-- Is a byte a UTF-8 continuation byte (`0x80`–`0xBF`)? -/
def isCont (b : Nat) : Bool := 0x80 ≤ b && b < 0xC0

/-- Decode one UTF-8 scalar value from a lead byte `b` and the remaining
bytes, strictly: stray continuation bytes, overlong forms, surrogates and
values above `0x10FFFF` are rejected. -/
def utf8Step (b : Nat) (rest : List Nat) : Option (Char × List Nat) :=
  if b < 0x80 then some (Char.ofNat b, rest)
  else if b < 0xC2 then none
  else if b < 0xE0 then
    match rest with
    | b2 :: rest2 =>
      if isCont b2 then
        some (Char.ofNat ((b - 0xC0) * 0x40 + (b2 - 0x80)), rest2)
      else none
    | [] => none
  else if b < 0xF0 then
    match rest with
    | b2 :: b3 :: rest3 =>
      if isCont b2 && isCont b3 then
        let n := (b - 0xE0) * 0x1000 + (b2 - 0x80) * 0x40 + (b3 - 0x80)
        if 0x800 ≤ n ∧ ¬(0xD800 ≤ n ∧ n ≤ 0xDFFF) then
          some (Char.ofNat n, rest3)
        else none
      else none
    | _ => none
  else if b < 0xF5 then
    match rest with
    | b2 :: b3 :: b4 :: rest4 =>
      if isCont b2 && isCont b3 && isCont b4 then
        let n := (b - 0xF0) * 0x40000 + (b2 - 0x80) * 0x1000 +
          (b3 - 0x80) * 0x40 + (b4 - 0x80)
        if 0x10000 ≤ n ∧ n ≤ 0x10FFFF then
          some (Char.ofNat n, rest4)
        else none
      else none
    | _ => none
  else none

/-- Bounded decoding loop; each step consumes at least one byte, so fuel
equal to the input length is always enough. -/
def utf8DecodeFuel : Nat → List Nat → Option (List Char)
  | _, [] => some []
  | 0, _ :: _ => none
  | fuel + 1, b :: rest =>
    match utf8Step b rest with
    | none => none
    | some (c, rest2) => (utf8DecodeFuel fuel rest2).map (c :: ·)

/-- Strict UTF-8 decoder, model of Python `bytes.decode('utf-8')`;
`none` models the `UnicodeDecodeError` raise. -/
def utf8Decode (l : List Nat) : Option (List Char) :=
  utf8DecodeFuel l.length l

/-! ## Fernet (model of `cryptography.fernet.Fernet`)

The library is a third-party collaborator, not part of this repository; it
is modelled by its documented contract: a symmetric token scheme whose
`decrypt` inverts `encrypt`.  The program only ever decrypts tokens it
produced itself, so a deterministic model of one key suffices for the
round-trip claims. -/

structure Fernet where
  enc : List Nat → List Nat
  dec : List Nat → Option (List Nat)
  dec_enc : ∀ b, dec (enc b) = some b

/-- The trivial key: one concrete inhabitant of the Fernet contract, used to
instantiate witnesses. -/
def idFernet : Fernet where
  enc := id
  dec := some
  dec_enc := fun _ => rfl

/-- Model of `Cifscloak.encrypt` (line 122): `self.key.encrypt(bytes(plain, encoding='utf-8'))`. -/
def encrypt (key : Fernet) (plain : String) : List Nat :=
  key.enc (utf8Encode plain)

/-- Model of `Cifscloak.decrypt` (line 125): `self.key.decrypt(encrypted).decode('utf-8')`.
`none` models the raise of `InvalidToken` or `UnicodeDecodeError`. -/
def decrypt (key : Fernet) (encrypted : List Nat) : Option String :=
  match key.dec encrypted with
  | none => none
  | some bs => (utf8Decode bs).map (fun cs => String.mk cs)

/-! ## Credential store (the `cifstab` sqlite table) -/

/-- One row of ciphertext fields, as stored by `addmount` (line 75). -/
structure EncRow where
  address : List Nat
  sharename : List Nat
  mountpoint : List Nat
  options : List Nat
  user : List Nat
  password : List Nat
deriving DecidableEq

/-- The `cifstab` table (schema lines 18–29): rows in insertion (rowid)
order, `name` the primary key. -/
abbrev Cifstab := List (String × EncRow)

/-- Model of `INSERT INTO cifstab ... VALUES (?,...)` on a table with
`PRIMARY KEY (name)`: inserting an already-present name raises
`sqlite3.IntegrityError`, modelled by `none`; otherwise the row is
appended. -/
def cifstabInsert (tab : Cifstab) (name : String) (row : EncRow) : Option Cifstab :=
  if tab.any (fun r => r.1 = name) then none else some (tab ++ [(name, row)])

/-- The argparse inputs of the `addmount` subcommand (lines 176–181). -/
structure AddArgs where
  name : String
  ipaddress : String
  sharename : String
  mountpoint : String
  user : String
  options : String

/-- Model of `Cifscloak.addmount` (lines 69–79): encrypt the six fields and insert;
`sqlite3.IntegrityError` (duplicate name) is caught at line 77, leaving the
table unchanged (the failed `INSERT` is never committed).  The boolean
records whether the duplicate-name error path was taken. -/
def addmount (key : Fernet) (tab : Cifstab) (args : AddArgs)
    (password : String) : Cifstab × Bool :=
  let row : EncRow :=
    { address := encrypt key args.ipaddress
      sharename := encrypt key args.sharename
      mountpoint := encrypt key args.mountpoint
      options := encrypt key args.options
      user := encrypt key args.user
      password := encrypt key password }
  match cifstabInsert tab args.name row with
  | some tab2 => (tab2, false)
  | none => (tab, true)

/-- Model of `Cifscloak.listmounts` (lines 86–92): `SELECT name FROM cifstab`,
names in rowid order. -/
def listmounts (tab : Cifstab) : List String := tab.map (·.1)

/-- A decrypted `MountEntry`, the dict built by `getcredentials`
(line 132). -/
structure Credentials where
  name : String
  address : String
  sharename : String
  mountpoint : String
  options : String
  user : String
  password : String
deriving DecidableEq

/-- Model of `Cifscloak.getcredentials` (lines 128–133): `SELECT ... WHERE name = ?`;
the loop leaves the dict built from the last matching row (the primary key
allows at most one).  `.ok none` is the empty dict returned when the name is
absent; `.error` models a decryption raise escaping the call. -/
def getcredentials (key : Fernet) (tab : Cifstab) (name : String) :
    Except Unit (Option Credentials) :=
  match (tab.filter (fun r => r.1 = name)).getLast? with
  | none => .ok none
  | some (n, row) =>
    match decrypt key row.address, decrypt key row.sharename,
      decrypt key row.mountpoint, decrypt key row.options,
      decrypt key row.user, decrypt key row.password with
    | some a, some s, some m, some o, some u, some p =>
      .ok (some ⟨n, a, s, m, o, u, p⟩)
    | _, _, _, _, _, _ => .error ()

/-! ## Retry classifier

Model of line 143,
`regex.search(r'(?|error\((\d+)\)|.+:.+:\s{1}(.+))', stderr).group(1)`:
a leftmost search; at each position the branch-reset alternation tries
`error\((\d+)\)` first, then `.+:.+:\s{1}(.+)` with greedy backtracking;
`.` does not match a newline, `\s` is one whitespace character. -/

/-- Model of `\d`. -/
def isDigit (c : Char) : Bool := '0' ≤ c && c ≤ '9'

/-- Model of `\s` (PCRE whitespace). -/
def isWs (c : Char) : Bool :=
  c = ' ' || c = '\t' || c = '\n' || c = '\r' || c = '\x0b' || c = '\x0c'

/-- Match `error\((\d+)\)` anchored at the head of `s`, returning the
digits.  `\d+\)` needs no backtracking: shrinking a maximal digit run can
only expose another digit, never `)`. -/
def alt1At : List Char → Option String
  | 'e' :: 'r' :: 'r' :: 'o' :: 'r' :: '(' :: rest =>
    let ds := rest.takeWhile isDigit
    if ds.isEmpty then none
    else
      match rest.drop ds.length with
      | ')' :: _ => some (String.mk ds)
      | _ => none
  | _ => none

/-- Try `f` at lengths `n, n-1, …, 1` and return the first hit: the
backtracking order of a greedy `.+`. -/
def tryLens (f : Nat → Option String) : Nat → Option String
  | 0 => none
  | n + 1 => (f (n + 1)).orElse (fun _ => tryLens f n)

/-- Length of the maximal `.`-run (no newline) at the head of `s`. -/
def dotRun (s : List Char) : Nat := (s.takeWhile (· ≠ '\n')).length

/-- Match `\s{1}(.+)` anchored at the head of `s`: one whitespace
character, then a greedy nonempty newline-free capture (nothing follows the
capture, so the greedy maximum is returned). -/
def tailCapture (s : List Char) : Option String :=
  match s with
  | w :: rest =>
    if isWs w then
      let cap := rest.takeWhile (· ≠ '\n')
      if cap.isEmpty then none else some (String.mk cap)
    else none
  | [] => none

/-- Match `.+:` anchored at the head of `s`, the rest of the pattern being
`k`; the `.+` is greedy, so the longest newline-free prefix followed by a
colon is tried first. -/
def dotPlusColon (s : List Char) (k : List Char → Option String) : Option String :=
  tryLens
    (fun len =>
      if (s.drop len).head? = some ':' then k (s.drop (len + 1)) else none)
    (dotRun s)

/-- Match `.+:.+:\s{1}(.+)` anchored at the head of `s`. -/
def alt2At (s : List Char) : Option String :=
  dotPlusColon s (fun s1 => dotPlusColon s1 tailCapture)

/-- Both alternatives at one position, in the pattern's order. -/
def searchAt (s : List Char) : Option String :=
  (alt1At s).orElse (fun _ => alt2At s)

/-- Leftmost search over all start positions. -/
def regexSearch : List Char → Option String
  | [] => none
  | s@(_ :: rest) => (searchAt s).orElse (fun _ => regexSearch rest)

/-- The error token of a failed command's stderr (`mounterr`, line 143);
`none` models a failed search, upon which `.group(1)` raises
`AttributeError`. -/
def extract (stderr : String) : Option String := regexSearch stderr.data

/-- Model of `retryschema['mount']` (line 32), a dict from numeric code to
description. -/
def retryschemaMount : List (String × String) := [("16", "Device or resource busy")]

/-- Model of `retryschema['umount']` (line 33), a list of messages. -/
def retryschemaUmount : List String := ["target is busy."]

/-- Model of `list(self.retryschema['mount'])` (line 119): the dict's keys. -/
def retryonMount : List String := retryschemaMount.map (·.1)

/-- Model of `list(self.retryschema['umount'])` (line 113). -/
def retryonUmount : List String := retryschemaUmount

/-! ## Mount executor -/

/-- Model of `self.status` (line 37). -/
structure Status where
  error : Nat
  successcount : Nat
  failedcount : Nat
  success : List String
  failed : List String
  attempts : String → Option Nat
  messages : List String

/-- The result of one completed subprocess (`proc.communicate()`,
lines 139–141). -/
structure CmdResult where
  returncode : Int
  stdout : String
  stderr : String

/-- The mutable state of one invocation: the status object plus logs of the
observable side effects (`time.sleep` calls and subprocess launches, the
latter as `(name, cmd)` pairs in launch order). -/
structure ExecState where
  status : Status
  sleeps : List Nat
  launches : List (String × String)

/-- Model of `self.status` as initialised at line 37. -/
def initStatus : Status where
  error := 0
  successcount := 0
  failedcount := 0
  success := []
  failed := []
  attempts := fun _ => none
  messages := []

/-- The state at the start of an invocation. -/
def initState : ExecState := { status := initStatus, sleeps := [], launches := [] }

/-- Model of `self.status['attempts'][name] = v`. -/
def setAttempts (st : Status) (name : String) (v : Nat) : Status :=
  { st with attempts := fun n => if n = name then some v else st.attempts n }

/-- Model of `self.status['attempts'][name]` (always set before being read). -/
def getAttempts (st : Status) (name : String) : Nat := (st.attempts name).getD 0

/-- One `subprocess.Popen` launch (line 139), recorded in the launch log. -/
def launchState (es : ExecState) (name cmd : String) : ExecState :=
  { es with launches := es.launches ++ [(name, cmd)] }

/-- Lines 147–148: set the error flag and append
`'{}: {}'.format(name, stderr)` to the messages. -/
def recordFailLine (es : ExecState) (name stderrText : String) : ExecState :=
  { es with status := { es.status with
      error := 1
      messages := es.status.messages ++ [name ++ ": " ++ stderrText] } }

/-- Model of `time.sleep(self.waitsecs)` (line 151), recorded in the sleep log. -/
def sleepState (es : ExecState) (waitsecs : Nat) : ExecState :=
  { es with sleeps := es.sleeps ++ [waitsecs] }

/-- Model of `self.status['attempts'][name] += 1` (line 157). -/
def incAttempts (es : ExecState) (name : String) : ExecState :=
  { es with status := setAttempts es.status name (getAttempts es.status name + 1) }

/-- The `while` loop of `Cifscloak.execute` (lines 138–157).  `runner n` is
the result of the n-th subprocess launch of the invocation; `rc` is the
`returncode` variable (`None` before the first launch).  The fuel argument
only bounds the recursion: `execute` passes `retries`, and each iteration
that does not leave the loop increments `attempts[name]` by one from 0, so
the loop guard `attempts[name] < retries` fails no later than the fuel runs
out.  `.error` models the `AttributeError` raised at line 143 when the
stderr search fails (escaping `execute` with the state reached so far);
`.ok` returns the final `returncode` for the check at line 159. -/
def executeLoop (runner : Nat → CmdResult) (retryon : List String)
    (expectedreturn : Int) (retries waitsecs : Nat) (name cmd : String) :
    Nat → Option Int → ExecState → Except ExecState (Option Int × ExecState)
  | 0, rc, es => .ok (rc, es)
  | fuel + 1, rc, es =>
    if rc = some expectedreturn then .ok (rc, es)
    else if retries ≤ getAttempts es.status name then .ok (rc, es)
    else if (runner es.launches.length).returncode ≠ 0 ∧
        (runner es.launches.length).returncode ≠ expectedreturn then
      match extract (runner es.launches.length).stderr with
      | none => .error (launchState es name cmd)
      | some mounterr =>
        if mounterr ∈ retryon then
          executeLoop runner retryon expectedreturn retries waitsecs name cmd
            fuel (some (runner es.launches.length).returncode)
            (incAttempts (sleepState (recordFailLine (launchState es name cmd)
              name (runner es.launches.length).stderr) waitsecs) name)
        else
          .ok (some (runner es.launches.length).returncode,
            recordFailLine (launchState es name cmd) name
              (runner es.launches.length).stderr)
    else
      executeLoop runner retryon expectedreturn retries waitsecs name cmd
        fuel (some (runner es.launches.length).returncode)
        (incAttempts (launchState es name cmd) name)

/-- Lines 159–162: record the name as failed. -/
def recordFailed (es : ExecState) (name : String) : ExecState :=
  { es with status := { es.status with
      error := 1
      failed := es.status.failed ++ [name]
      failedcount := es.status.failedcount + 1 } }

/-- Lines 163–165: record the name as succeeded. -/
def recordSuccess (es : ExecState) (name : String) : ExecState :=
  { es with status := { es.status with
      successcount := es.status.successcount + 1
      success := es.status.success ++ [name] } }

/-- Model of `Cifscloak.execute` (lines 135–165): reset `attempts[name]`, run the
retry loop, then record the name as failed or succeeded (lines 159–165). -/
def execute (runner : Nat → CmdResult) (retryon : List String)
    (expectedreturn : Int) (retries waitsecs : Nat) (name cmd : String)
    (es : ExecState) : Except ExecState ExecState :=
  let es0 : ExecState := { es with status := setAttempts es.status name 0 }
  match executeLoop runner retryon expectedreturn retries waitsecs name cmd
      retries none es0 with
  | .error esX => .error esX
  | .ok (rc, es1) =>
    if rc ≠ some expectedreturn then .ok (recordFailed es1 name)
    else .ok (recordSuccess es1 name)

/-- The state carried by either outcome of the retry loop. -/
def loopState : Except ExecState (Option Int × ExecState) → ExecState
  | .error es => es
  | .ok (_, es) => es

/-- The state carried by either outcome of a call (completed or aborted by
an uncaught raise). -/
def runState : Except ExecState ExecState → ExecState
  | .error es => es
  | .ok es => es

/-- Did the call abort with an uncaught raise? -/
def crashed : Except ExecState ExecState → Bool
  | .error _ => true
  | .ok _ => false

/-- The fields of `self.status` that the retry loop never touches. -/
def framePreserved (es es2 : ExecState) : Prop :=
  es2.status.success = es.status.success ∧
  es2.status.failed = es.status.failed ∧
  es2.status.successcount = es.status.successcount ∧
  es2.status.failedcount = es.status.failedcount

/-- The status invariant behind the exit code: the error flag is boolean,
and it is clear exactly when no failure message and no failed name has been
recorded. -/
def statusInv (st : Status) : Prop :=
  (st.error = 0 ∨ st.error = 1) ∧
  (st.error = 0 ↔ st.messages = [] ∧ st.failed = [])

/-! ## Orchestrator -/

/-- The argparse inputs of the `mount` subcommand that the orchestration
uses (lines 182–188). -/
structure MountArgs where
  all : Bool
  names : List String
  u : Bool

/-- Model of `list(dict.fromkeys(args.names))` (line 99): remove duplicate names,
keeping the first occurrence of each, in order. -/
def dedupFirst (l : List String) : List String :=
  l.foldl (fun acc n => if n ∈ acc then acc else acc ++ [n]) []

/-- The message of line 104. -/
def notFoundMessage (name : String) : String :=
  "cifs name " ++ name ++ " not found in cifstab"

/-- Lines 107–108: append the not-found message and set the error flag. -/
def notFoundState (es : ExecState) (name : String) : ExecState :=
  { es with status := { es.status with
      messages := es.status.messages ++ [notFoundMessage name]
      error := 1 } }

/-- The command line built at line 112 (`umount`) or line 118 (`mount`). -/
def buildCmd (u : Bool) (c : Credentials) : String :=
  if u then "umount " ++ c.mountpoint
  else
    "mount -t cifs -o username=" ++ c.user ++ ",password=" ++ c.password ++
      "," ++ c.options ++ " //" ++ c.address ++ "/" ++ c.sharename ++ " " ++
      c.mountpoint

/-- The `for name in mounts` loop of `Cifscloak.mount` (lines 101–120):
a missing name appends the not-found message, sets the error flag and
`continue`s; otherwise `execute` runs with the operation's retry list.
`.error` propagates an uncaught raise (which aborts the whole batch). -/
def mountLoop (key : Fernet) (tab : Cifstab) (runner : Nat → CmdResult)
    (u : Bool) (retries waitsecs : Nat) :
    List String → ExecState → Except ExecState ExecState
  | [], es => .ok es
  | name :: rest, es =>
    match getcredentials key tab name with
    | .error _ => .error es
    | .ok none =>
      mountLoop key tab runner u retries waitsecs rest (notFoundState es name)
    | .ok (some c) =>
      match execute runner (if u then retryonUmount else retryonMount) 0
          retries waitsecs name (buildCmd u c) es with
      | .error esX => .error esX
      | .ok es2 => mountLoop key tab runner u retries waitsecs rest es2

/-- Model of `Cifscloak.mount` (lines 94–120): resolve the working set (all stored
names, or the explicit list de-duplicated) and process each name. -/
def mount (key : Fernet) (tab : Cifstab) (runner : Nat → CmdResult)
    (args : MountArgs) (retries waitsecs : Nat) (es : ExecState) :
    Except ExecState ExecState :=
  let mounts := if args.all then listmounts tab else dedupFirst args.names
  mountLoop key tab runner args.u retries waitsecs mounts es

/-- Model of `Cifscloak.checkstatus` (lines 64–67): the process exit code of a
completed invocation is `parser.exit(status=self.status['error'])`. -/
def checkstatus (st : Status) : Nat := st.error

/-- Bootstrap (lines 46–50): a `PermissionError` while creating the cifstab
directory prints a message and exits the process with code 1 before any
work is done; `none` means bootstrap succeeded and the invocation runs. -/
def bootstrapExitCode (permissionError : Bool) : Option Nat :=
  if permissionError then some 1 else none

/-! ## Specification-side definitions and concrete test fixtures -/

/-- Specification-side reading of "duplicates removed preserving
first-occurrence order" (for comparison with `dedupFirst`): scan left to
right, keeping a name iff it has not been seen before. -/
def keepFirsts (seen : List String) : List String → List String
  | [] => []
  | x :: xs =>
    if x ∈ seen then keepFirsts seen xs else x :: keepFirsts (seen ++ [x]) xs

/-- A stub command that always fails with the retryable busy error. -/
def busyRunner : Nat → CmdResult := fun _ =>
  { returncode := 16, stdout := ""
    stderr := "mount error(16): Device or resource busy" }

/-- A stub command that fails once with an error token that is not in the
mount retry list. -/
def denyRunner : Nat → CmdResult := fun _ =>
  { returncode := 13, stdout := "", stderr := "mount error(13): Permission denied" }

/-- A stub command whose stderr matches neither extraction pattern. -/
def noiseRunner : Nat → CmdResult := fun _ =>
  { returncode := 2, stdout := "", stderr := "boom" }

/-- A stub command that always succeeds. -/
def okRunner : Nat → CmdResult := fun _ =>
  { returncode := 0, stdout := "", stderr := "" }

/-- A stub command that fails with the retryable busy error on the first
launch of the invocation and succeeds afterwards. -/
def flakyRunner : Nat → CmdResult := fun n =>
  if n = 0 then
    { returncode := 16, stdout := ""
      stderr := "mount error(16): Device or resource busy" }
  else { returncode := 0, stdout := "", stderr := "" }

/-- A row whose six fields are encrypted with the trivial key. -/
def mkRow (a s m o u p : String) : EncRow :=
  { address := encrypt idFernet a
    sharename := encrypt idFernet s
    mountpoint := encrypt idFernet m
    options := encrypt idFernet o
    user := encrypt idFernet u
    password := encrypt idFernet p }

/-- The spec's scenario entry. -/
def rowFS : EncRow := mkRow "10.0.0.5" "docs" "/mnt/docs" " " "alice" "secret"

/-- A store holding only the entry `fileserver`. -/
def tabFS : Cifstab := [("fileserver", rowFS)]

/-- A store holding only an entry named `b`. -/
def tabB : Cifstab := [("b", rowFS)]

/-- A store holding entries named `a` and `b`. -/
def tabAB : Cifstab := [("a", rowFS), ("b", rowFS)]

/-- The spec's scenario `addmount` arguments. -/
def argsFS : AddArgs :=
  { name := "fileserver", ipaddress := "10.0.0.5", sharename := "docs"
    mountpoint := "/mnt/docs", user := "alice", options := " " }

/-- Model of `mount -n fileserver`. -/
def margsFS : MountArgs := { all := false, names := ["fileserver"], u := false }

/-- Model of `mount -n missing b` (first name absent from the store). -/
def margsMB : MountArgs := { all := false, names := ["missing", "b"], u := false }

/-- Model of `mount -n a a b` (a duplicated name). -/
def margsAAB : MountArgs := { all := false, names := ["a", "a", "b"], u := false }

/-! ### UTF-8 round trip -/

theorem utf8Step_encodeChar (c : Char) (rest : List Nat) :
    ∃ b tail, utf8EncodeChar c = b :: tail ∧ tail.length ≤ 3 ∧
      utf8Step b (tail ++ rest) = some (c, rest) := by
  have hval : c.toNat < 0xD800 ∨ (0xDFFF < c.toNat ∧ c.toNat < 0x110000) := c.valid
  by_cases ha : c.toNat < 0x80
  · refine ⟨c.toNat, [], ?_, by simp, ?_⟩
    · unfold utf8EncodeChar; simp [ha]
    · unfold utf8Step
      simp only [ha, if_true, List.nil_append]
      rw [Char.ofNat_toNat]
  · by_cases hb : c.toNat < 0x800
    · refine ⟨0xC0 + c.toNat / 0x40, [0x80 + c.toNat % 0x40], ?_, by simp, ?_⟩
      · unfold utf8EncodeChar; simp [ha, hb]
      · unfold utf8Step
        have g1 : ¬ (0xC0 + c.toNat / 0x40 < 0x80) := by omega
        have g2 : ¬ (0xC0 + c.toNat / 0x40 < 0xC2) := by omega
        have g3 : 0xC0 + c.toNat / 0x40 < 0xE0 := by omega
        have g4 : isCont (0x80 + c.toNat % 0x40) = true := by
          unfold isCont; simp only [Bool.and_eq_true, decide_eq_true_eq]; omega
        simp only [List.cons_append, List.nil_append, g1, g2, g3, g4,
          if_true, if_false]
        have harith : (0xC0 + c.toNat / 0x40 - 0xC0) * 0x40 +
            (0x80 + c.toNat % 0x40 - 0x80) = c.toNat := by omega
        rw [harith, Char.ofNat_toNat]
    · by_cases hc : c.toNat < 0x10000
      · refine ⟨0xE0 + c.toNat / 0x1000,
          [0x80 + c.toNat / 0x40 % 0x40, 0x80 + c.toNat % 0x40], ?_, by simp, ?_⟩
        · unfold utf8EncodeChar; simp [ha, hb, hc]
        · unfold utf8Step
          have g1 : ¬ (0xE0 + c.toNat / 0x1000 < 0x80) := by omega
          have g2 : ¬ (0xE0 + c.toNat / 0x1000 < 0xC2) := by omega
          have g3 : ¬ (0xE0 + c.toNat / 0x1000 < 0xE0) := by omega
          have g4 : 0xE0 + c.toNat / 0x1000 < 0xF0 := by omega
          have g5 : isCont (0x80 + c.toNat / 0x40 % 0x40) = true := by
            unfold isCont; simp only [Bool.and_eq_true, decide_eq_true_eq]; omega
          have g6 : isCont (0x80 + c.toNat % 0x40) = true := by
            unfold isCont; simp only [Bool.and_eq_true, decide_eq_true_eq]; omega
          simp only [List.cons_append, List.nil_append, g1, g2, g3, g4, g5, g6,
            if_true, if_false, Bool.and_self]
          have harith : (0xE0 + c.toNat / 0x1000 - 0xE0) * 0x1000 +
              (0x80 + c.toNat / 0x40 % 0x40 - 0x80) * 0x40 +
              (0x80 + c.toNat % 0x40 - 0x80) = c.toNat := by omega
          rw [harith]
          have hr1 : 0x800 ≤ c.toNat := by omega
          have hr2 : ¬ (0xD800 ≤ c.toNat ∧ c.toNat ≤ 0xDFFF) := by omega
          rw [if_pos ⟨hr1, hr2⟩, Char.ofNat_toNat]
      · have hup : c.toNat < 0x110000 := by omega
        refine ⟨0xF0 + c.toNat / 0x40000,
          [0x80 + c.toNat / 0x1000 % 0x40, 0x80 + c.toNat / 0x40 % 0x40,
            0x80 + c.toNat % 0x40], ?_, by simp, ?_⟩
        · unfold utf8EncodeChar; simp [ha, hb, hc]
        · unfold utf8Step
          have g1 : ¬ (0xF0 + c.toNat / 0x40000 < 0x80) := by omega
          have g2 : ¬ (0xF0 + c.toNat / 0x40000 < 0xC2) := by omega
          have g3 : ¬ (0xF0 + c.toNat / 0x40000 < 0xE0) := by omega
          have g4 : ¬ (0xF0 + c.toNat / 0x40000 < 0xF0) := by omega
          have g5 : 0xF0 + c.toNat / 0x40000 < 0xF5 := by omega
          have g6 : isCont (0x80 + c.toNat / 0x1000 % 0x40) = true := by
            unfold isCont; simp only [Bool.and_eq_true, decide_eq_true_eq]; omega
          have g7 : isCont (0x80 + c.toNat / 0x40 % 0x40) = true := by
            unfold isCont; simp only [Bool.and_eq_true, decide_eq_true_eq]; omega
          have g8 : isCont (0x80 + c.toNat % 0x40) = true := by
            unfold isCont; simp only [Bool.and_eq_true, decide_eq_true_eq]; omega
          simp only [List.cons_append, List.nil_append, g1, g2, g3, g4, g5, g6,
            g7, g8, if_true, if_false, Bool.and_self]
          have harith : (0xF0 + c.toNat / 0x40000 - 0xF0) * 0x40000 +
              (0x80 + c.toNat / 0x1000 % 0x40 - 0x80) * 0x1000 +
              (0x80 + c.toNat / 0x40 % 0x40 - 0x80) * 0x40 +
              (0x80 + c.toNat % 0x40 - 0x80) = c.toNat := by omega
          rw [harith]
          have hr1 : 0x10000 ≤ c.toNat := by omega
          have hr2 : c.toNat ≤ 0x10FFFF := by omega
          rw [if_pos ⟨hr1, hr2⟩, Char.ofNat_toNat]

theorem utf8DecodeFuel_flatMap (l : List Char) : ∀ fuel : Nat,
    (l.flatMap utf8EncodeChar).length ≤ fuel →
    utf8DecodeFuel fuel (l.flatMap utf8EncodeChar) = some l := by
  induction l with
  | nil => intro fuel _; cases fuel <;> rfl
  | cons c cs ih =>
    intro fuel hfuel
    obtain ⟨b, tail, henc, _, hstep⟩ :=
      utf8Step_encodeChar c (cs.flatMap utf8EncodeChar)
    rw [List.flatMap_cons, henc] at hfuel ⊢
    simp only [List.cons_append, List.length_cons, List.length_append] at hfuel ⊢
    obtain ⟨fuel2, rfl⟩ : ∃ f, fuel = f + 1 := ⟨fuel - 1, by omega⟩
    unfold utf8DecodeFuel
    rw [hstep]
    dsimp only
    rw [ih fuel2 (by omega)]
    rfl

theorem utf8Decode_utf8Encode (s : String) :
    utf8Decode (utf8Encode s) = some s.data :=
  utf8DecodeFuel_flatMap s.data _ (le_refl _)

/-! ## Retry-loop invariants -/

theorem getAttempts_setAttempts (st : Status) (name : String) (v : Nat) :
    getAttempts (setAttempts st name v) name = v := by
  simp [getAttempts, setAttempts]

theorem executeLoop_frame (runner : Nat → CmdResult) (retryon : List String)
    (expectedreturn : Int) (retries waitsecs : Nat) (name cmd : String) :
    ∀ (fuel : Nat) (rc : Option Int) (es : ExecState),
      framePreserved es (loopState (executeLoop runner retryon expectedreturn
        retries waitsecs name cmd fuel rc es)) ∧
      getAttempts es.status name ≤ getAttempts (loopState (executeLoop runner
        retryon expectedreturn retries waitsecs name cmd fuel rc es)).status name ∧
      getAttempts (loopState (executeLoop runner retryon expectedreturn retries
        waitsecs name cmd fuel rc es)).status name ≤
        getAttempts es.status name + fuel ∧
      (((loopState (executeLoop runner retryon expectedreturn retries waitsecs
          name cmd fuel rc es)).status.error = es.status.error ∧
        (loopState (executeLoop runner retryon expectedreturn retries waitsecs
          name cmd fuel rc es)).status.messages = es.status.messages) ∨
       ((loopState (executeLoop runner retryon expectedreturn retries waitsecs
          name cmd fuel rc es)).status.error = 1 ∧
        (loopState (executeLoop runner retryon expectedreturn retries waitsecs
          name cmd fuel rc es)).status.messages ≠ [])) := by
  intro fuel
  induction fuel with
  | zero =>
    intro rc es
    simp [executeLoop, loopState, framePreserved]
  | succ n ih =>
    intro rc es
    by_cases h1 : rc = some expectedreturn
    · unfold executeLoop
      rw [if_pos h1]
      simp [loopState, framePreserved]
    · by_cases h2 : retries ≤ getAttempts es.status name
      · unfold executeLoop
        rw [if_neg h1, if_pos h2]
        simp [loopState, framePreserved]
      · by_cases h3 : (runner es.launches.length).returncode ≠ 0 ∧
            (runner es.launches.length).returncode ≠ expectedreturn
        · cases hex : extract (runner es.launches.length).stderr with
          | none =>
            unfold executeLoop
            rw [if_neg h1, if_neg h2, if_pos h3, hex]
            simp [loopState, framePreserved, launchState]
          | some tok =>
            by_cases h4 : tok ∈ retryon
            · unfold executeLoop
              rw [if_neg h1, if_neg h2, if_pos h3, hex]
              dsimp only
              rw [if_pos h4]
              have hX : getAttempts (incAttempts (sleepState (recordFailLine
                  (launchState es name cmd) name
                  (runner es.launches.length).stderr) waitsecs) name).status name =
                  getAttempts es.status name + 1 := by
                simp [incAttempts, sleepState, recordFailLine, launchState,
                  getAttempts, setAttempts]
              obtain ⟨⟨f1, f2, f3, f4⟩, m1, m2, herr⟩ :=
                ih (some (runner es.launches.length).returncode)
                  (incAttempts (sleepState (recordFailLine (launchState es name cmd)
                    name (runner es.launches.length).stderr) waitsecs) name)
              refine ⟨⟨?_, ?_, ?_, ?_⟩, ?_, ?_, ?_⟩
              · rw [f1]
                simp [incAttempts, sleepState, recordFailLine, launchState, setAttempts]
              · rw [f2]
                simp [incAttempts, sleepState, recordFailLine, launchState, setAttempts]
              · rw [f3]
                simp [incAttempts, sleepState, recordFailLine, launchState, setAttempts]
              · rw [f4]
                simp [incAttempts, sleepState, recordFailLine, launchState, setAttempts]
              · omega
              · omega
              · right
                constructor
                · rcases herr with ⟨he, _⟩ | ⟨he, _⟩
                  · rw [he]
                    simp [incAttempts, sleepState, recordFailLine, launchState, setAttempts]
                  · exact he
                · rcases herr with ⟨_, hm⟩ | ⟨_, hm⟩
                  · rw [hm]
                    simp [incAttempts, sleepState, recordFailLine, launchState, setAttempts]
                  · exact hm
            · unfold executeLoop
              rw [if_neg h1, if_neg h2, if_pos h3, hex]
              dsimp only
              rw [if_neg h4]
              refine ⟨⟨?_, ?_, ?_, ?_⟩, ?_, ?_, ?_⟩ <;>
                simp [loopState, recordFailLine, launchState, getAttempts]
        · unfold executeLoop
          rw [if_neg h1, if_neg h2, if_neg h3]
          have hX : getAttempts (incAttempts (launchState es name cmd) name).status
              name = getAttempts es.status name + 1 := by
            simp [incAttempts, launchState, getAttempts, setAttempts]
          obtain ⟨⟨f1, f2, f3, f4⟩, m1, m2, herr⟩ :=
            ih (some (runner es.launches.length).returncode)
              (incAttempts (launchState es name cmd) name)
          refine ⟨⟨?_, ?_, ?_, ?_⟩, ?_, ?_, ?_⟩
          · rw [f1]
            simp [incAttempts, launchState, setAttempts]
          · rw [f2]
            simp [incAttempts, launchState, setAttempts]
          · rw [f3]
            simp [incAttempts, launchState, setAttempts]
          · rw [f4]
            simp [incAttempts, launchState, setAttempts]
          · omega
          · omega
          · rcases herr with ⟨he, hm⟩ | ⟨he, hm⟩
            · left
              constructor
              · rw [he]
                simp [incAttempts, launchState, setAttempts]
              · rw [hm]
                simp [incAttempts, launchState, setAttempts]
            · right
              exact ⟨he, hm⟩

theorem executeLoop_busy (runner : Nat → CmdResult) (retries waitsecs : Nat)
    (name cmd : String)
    (hrun : ∀ i, (runner i).returncode = 16 ∧ extract (runner i).stderr = some "16") :
    ∀ (fuel k : Nat) (rc : Option Int) (es : ExecState),
      rc ≠ some (0 : Int) →
      es.status.attempts name = some k →
      k + fuel = retries →
      ∃ rc2 es2,
        executeLoop runner retryonMount 0 retries waitsecs name cmd fuel rc es =
          .ok (rc2, es2) ∧
        rc2 ≠ some (0 : Int) ∧
        es2.launches.length = es.launches.length + fuel ∧
        es2.status.attempts name = some retries ∧
        es2.status.failed = es.status.failed ∧
        es2.status.success = es.status.success ∧
        es2.status.failedcount = es.status.failedcount ∧
        es2.status.successcount = es.status.successcount := by
  intro fuel
  induction fuel with
  | zero =>
    intro k rc es hrc hk hkr
    have hkr2 : k = retries := by omega
    refine ⟨rc, es, by simp [executeLoop], hrc, by simp, ?_, rfl, rfl, rfl, rfl⟩
    rw [hk, hkr2]
  | succ n ih =>
    intro k rc es hrc hk hkr
    have h2 : ¬ (retries ≤ getAttempts es.status name) := by
      simp [getAttempts, hk]
      omega
    have h3 : (runner es.launches.length).returncode ≠ 0 ∧
        (runner es.launches.length).returncode ≠ (0 : Int) := by
      have h16 := (hrun es.launches.length).1
      rw [h16]
      constructor <;> decide
    have hkX : (incAttempts (sleepState (recordFailLine (launchState es name cmd)
        name (runner es.launches.length).stderr) waitsecs) name).status.attempts
        name = some (k + 1) := by
      simp [incAttempts, sleepState, recordFailLine, launchState, setAttempts,
        getAttempts, hk]
    have hrcX : some (runner es.launches.length).returncode ≠ some (0 : Int) := by
      rw [(hrun es.launches.length).1]
      decide
    obtain ⟨rc2, es2, heq, hrc2, hlen, hatt, hfail, hsucc, hfc, hsc⟩ :=
      ih (k + 1) (some (runner es.launches.length).returncode)
        (incAttempts (sleepState (recordFailLine (launchState es name cmd)
          name (runner es.launches.length).stderr) waitsecs) name)
        hrcX hkX (by omega)
    unfold executeLoop
    rw [if_neg hrc, if_neg h2, if_pos h3, (hrun es.launches.length).2]
    dsimp only
    rw [if_pos (show "16" ∈ retryonMount by decide)]
    refine ⟨rc2, es2, heq, hrc2, ?_, hatt, ?_, ?_, ?_, ?_⟩
    · rw [hlen]
      simp [incAttempts, sleepState, recordFailLine, launchState, setAttempts]
      omega
    · rw [hfail]
      simp [incAttempts, sleepState, recordFailLine, launchState, setAttempts]
    · rw [hsucc]
      simp [incAttempts, sleepState, recordFailLine, launchState, setAttempts]
    · rw [hfc]
      simp [incAttempts, sleepState, recordFailLine, launchState, setAttempts]
    · rw [hsc]
      simp [incAttempts, sleepState, recordFailLine, launchState, setAttempts]

/-! ## C1: retry bound for the always-busy command -/

/-- C1: for a command that fails on every attempt with the retryable
"device or resource busy" token (exit code 16, stderr whose extracted token
is `"16"`), `execute` launches the external command exactly `retries`
times, records `attempts[name] == retries`, and appends the name to the
failed list with the aggregate error flag set. -/
theorem execute_busy_records_failed (runner : Nat → CmdResult)
    (retries waitsecs : Nat) (name cmd : String) (es : ExecState)
    (hrun : ∀ i, (runner i).returncode = 16 ∧ extract (runner i).stderr = some "16") :
    ∃ es2, execute runner retryonMount 0 retries waitsecs name cmd es = .ok es2 ∧
      es2.launches.length = es.launches.length + retries ∧
      es2.status.attempts name = some retries ∧
      es2.status.failed = es.status.failed ++ [name] ∧
      es2.status.failedcount = es.status.failedcount + 1 ∧
      es2.status.error = 1 := by
  obtain ⟨rc2, es2, heq, hrc2, hlen, hatt, hfail, hsucc, hfc, hsc⟩ :=
    executeLoop_busy runner retries waitsecs name cmd hrun retries 0 none
      { es with status := setAttempts es.status name 0 }
      (by simp) (by simp [setAttempts]) (by omega)
  have hlen2 : es2.launches.length = es.launches.length + retries := by
    simpa using hlen
  have hfail2 : es2.status.failed = es.status.failed := by
    simpa [setAttempts] using hfail
  have hfc2 : es2.status.failedcount = es.status.failedcount := by
    simpa [setAttempts] using hfc
  unfold execute
  dsimp only
  rw [heq]
  dsimp only
  rw [if_pos hrc2]
  refine ⟨recordFailed es2 name, rfl, ?_, ?_, ?_, ?_, rfl⟩
  · simpa [recordFailed] using hlen2
  · simpa [recordFailed] using hatt
  · simp [recordFailed, hfail2]
  · simp [recordFailed, hfc2]

theorem busyExtract :
    extract "mount error(16): Device or resource busy" = some "16" := by
  decide

/-- Witness for C1 at the spec's scenario: stub mount command exiting 16
with the busy stderr every time, `retries = 3`. -/
theorem execute_busy_records_failed_witness :
    ∃ es2, execute busyRunner retryonMount 0 3 5 "fileserver" "mountcmd"
        initState = .ok es2 ∧
      es2.launches.length = initState.launches.length + 3 ∧
      es2.status.attempts "fileserver" = some 3 ∧
      es2.status.failed = initState.status.failed ++ ["fileserver"] ∧
      es2.status.failedcount = initState.status.failedcount + 1 ∧
      es2.status.error = 1 :=
  execute_busy_records_failed busyRunner 3 5 "fileserver" "mountcmd" initState
    (fun _ => ⟨rfl, busyExtract⟩)

/-! ## C2: non-retryable short circuit -/

/-- C2 counterexample: with a command that fails once with the unmapped
token `"13"`, `execute` launches exactly once, sleeps never, and records
the name as failed — but the recorded attempt count is `0`, not `1`: the
`break` at line 155 is reached before the `+= 1` at line 157. -/
theorem execute_nonretryable_attempts_cex :
    (runState (execute denyRunner retryonMount 0 3 5 "fileserver" "mountcmd"
      initState)).status.attempts "fileserver" = some 0 ∧
    (runState (execute denyRunner retryonMount 0 3 5 "fileserver" "mountcmd"
      initState)).status.attempts "fileserver" ≠ some 1 ∧
    (runState (execute denyRunner retryonMount 0 3 5 "fileserver" "mountcmd"
      initState)).status.failed = ["fileserver"] ∧
    (runState (execute denyRunner retryonMount 0 3 5 "fileserver" "mountcmd"
      initState)).sleeps = [] ∧
    (runState (execute denyRunner retryonMount 0 3 5 "fileserver" "mountcmd"
      initState)).launches.length = 1 ∧
    crashed (execute denyRunner retryonMount 0 3 5 "fileserver" "mountcmd"
      initState) = false := by
  decide

/-- C2 (amended): for a command whose first failure carries an error token
not in the operation's retry list, `execute` launches the external command
exactly once, records the name as failed, sleeps no wait interval — and
leaves the recorded attempt count for that name at `0` (the non-retryable
`break` skips the increment). -/
theorem execute_nonretryable_single_launch (runner : Nat → CmdResult)
    (retryon : List String) (expectedreturn : Int) (retries waitsecs : Nat)
    (name cmd : String) (es : ExecState) (tok : String)
    (h1 : 1 ≤ retries)
    (h2 : (runner es.launches.length).returncode ≠ 0)
    (h3 : (runner es.launches.length).returncode ≠ expectedreturn)
    (h4 : extract (runner es.launches.length).stderr = some tok)
    (h5 : tok ∉ retryon) :
    execute runner retryon expectedreturn retries waitsecs name cmd es =
      .ok (recordFailed (recordFailLine (launchState
        { es with status := setAttempts es.status name 0 } name cmd) name
        (runner es.launches.length).stderr) name) ∧
    (recordFailed (recordFailLine (launchState
      { es with status := setAttempts es.status name 0 } name cmd) name
      (runner es.launches.length).stderr) name).status.attempts name = some 0 ∧
    (recordFailed (recordFailLine (launchState
      { es with status := setAttempts es.status name 0 } name cmd) name
      (runner es.launches.length).stderr) name).sleeps = es.sleeps ∧
    (recordFailed (recordFailLine (launchState
      { es with status := setAttempts es.status name 0 } name cmd) name
      (runner es.launches.length).stderr) name).launches =
      es.launches ++ [(name, cmd)] ∧
    (recordFailed (recordFailLine (launchState
      { es with status := setAttempts es.status name 0 } name cmd) name
      (runner es.launches.length).stderr) name).status.failed =
      es.status.failed ++ [name] := by
  obtain ⟨k, rfl⟩ : ∃ k, retries = k + 1 := ⟨retries - 1, by omega⟩
  refine ⟨?_, ?_, ?_, ?_, ?_⟩
  · unfold execute executeLoop
    dsimp only
    rw [if_neg (show ¬ ((none : Option Int) = some expectedreturn) by simp)]
    rw [if_neg (show ¬ (k + 1 ≤ getAttempts (setAttempts es.status name 0) name)
      by simp [getAttempts_setAttempts])]
    rw [if_pos ⟨h2, h3⟩, h4]
    dsimp only
    rw [if_neg h5]
    dsimp only
    rw [if_pos (show ¬ (some (runner es.launches.length).returncode =
      some expectedreturn) from fun hh => h3 (Option.some.inj hh))]
  · simp [recordFailed, recordFailLine, launchState, setAttempts]
  · simp [recordFailed, recordFailLine, launchState, sleepState]
  · simp [recordFailed, recordFailLine, launchState]
  · simp [recordFailed, recordFailLine, launchState, setAttempts]

/-- Witness for C2 (amended): the permission-denied stub, `retries = 3`. -/
theorem execute_nonretryable_single_launch_witness :
    execute denyRunner retryonMount 0 3 5 "fileserver" "mountcmd" initState =
      .ok (recordFailed (recordFailLine (launchState
        { initState with status := setAttempts initState.status "fileserver" 0 }
        "fileserver" "mountcmd") "fileserver"
        (denyRunner initState.launches.length).stderr) "fileserver") :=
  (execute_nonretryable_single_launch denyRunner retryonMount 0 3 5 "fileserver"
    "mountcmd" initState "13" (by decide) (by decide) (by decide) (by decide)
    (by decide)).1

/-! ## C4: stderr matching neither extraction pattern -/

/-- C4 counterexample: on a failure whose stderr `"boom"` matches neither
pattern, `execute` does not reach a terminal-failure state: it aborts with
the uncaught `AttributeError` of line 143 (`regex.search` returned `None`
and `.group(1)` was called on it). -/
theorem execute_unmatched_stderr_cex :
    crashed (execute noiseRunner retryonMount 0 3 5 "fileserver" "mountcmd"
      initState) = true ∧
    extract "boom" = none := by
  decide

/-- C4 (amended): for every failing command whose stderr matches neither
the `error(<digits>)` pattern nor the `<prefix>:<prefix>: <message>`
pattern, the token extraction is undefined and `execute` raises an uncaught
`AttributeError` after that single launch: no retry, no sleep, and the name
is recorded in neither list (the whole invocation aborts). -/
theorem execute_unmatched_stderr_raises (runner : Nat → CmdResult)
    (retryon : List String) (expectedreturn : Int) (retries waitsecs : Nat)
    (name cmd : String) (es : ExecState)
    (h1 : 1 ≤ retries)
    (h2 : (runner es.launches.length).returncode ≠ 0)
    (h3 : (runner es.launches.length).returncode ≠ expectedreturn)
    (h4 : extract (runner es.launches.length).stderr = none) :
    execute runner retryon expectedreturn retries waitsecs name cmd es =
      .error (launchState { es with status := setAttempts es.status name 0 }
        name cmd) ∧
    (launchState { es with status := setAttempts es.status name 0 }
      name cmd).status.failed = es.status.failed ∧
    (launchState { es with status := setAttempts es.status name 0 }
      name cmd).status.success = es.status.success ∧
    (launchState { es with status := setAttempts es.status name 0 }
      name cmd).launches = es.launches ++ [(name, cmd)] ∧
    (launchState { es with status := setAttempts es.status name 0 }
      name cmd).sleeps = es.sleeps := by
  obtain ⟨k, rfl⟩ : ∃ k, retries = k + 1 := ⟨retries - 1, by omega⟩
  refine ⟨?_, ?_, ?_, ?_, ?_⟩
  · unfold execute executeLoop
    dsimp only
    rw [if_neg (show ¬ ((none : Option Int) = some expectedreturn) by simp)]
    rw [if_neg (show ¬ (k + 1 ≤ getAttempts (setAttempts es.status name 0) name)
      by simp [getAttempts_setAttempts])]
    rw [if_pos ⟨h2, h3⟩, h4]
  · simp [launchState, setAttempts]
  · simp [launchState, setAttempts]
  · simp [launchState]
  · simp [launchState]

/-- Witness for C4 (amended): the `"boom"` stub. -/
theorem execute_unmatched_stderr_raises_witness :
    execute noiseRunner retryonMount 0 3 5 "fileserver" "mountcmd" initState =
      .error (launchState
        { initState with status := setAttempts initState.status "fileserver" 0 }
        "fileserver" "mountcmd") :=
  (execute_unmatched_stderr_raises noiseRunner retryonMount 0 3 5 "fileserver"
    "mountcmd" initState (by decide) (by decide) (by decide) (by decide)).1

/-! ## C9: attempt counter invariant -/

/-- C9: throughout a single `execute` run for a name, the recorded attempt
counter for that name is monotonically non-decreasing over the steps of the
retry loop (each loop step is an `executeLoop` call, so the first conjunct
applies to every intermediate state) and never exceeds the configured retry
limit; in particular the counter of a completed or aborted `execute` call
is at most `retries`. -/
theorem attempts_monotone_bounded (runner : Nat → CmdResult)
    (retryon : List String) (expectedreturn : Int) (retries waitsecs : Nat)
    (name cmd : String) :
    (∀ (fuel : Nat) (rc : Option Int) (es : ExecState),
      getAttempts es.status name + fuel ≤ retries →
      getAttempts es.status name ≤ getAttempts (loopState (executeLoop runner
        retryon expectedreturn retries waitsecs name cmd fuel rc es)).status
        name ∧
      getAttempts (loopState (executeLoop runner retryon expectedreturn
        retries waitsecs name cmd fuel rc es)).status name ≤ retries) ∧
    (∀ es : ExecState, getAttempts (runState (execute runner retryon
      expectedreturn retries waitsecs name cmd es)).status name ≤ retries) := by
  constructor
  · intro fuel rc es hle
    obtain ⟨-, m1, m2, -⟩ := executeLoop_frame runner retryon expectedreturn
      retries waitsecs name cmd fuel rc es
    exact ⟨m1, by omega⟩
  · intro es
    obtain ⟨-, m1, m2, -⟩ := executeLoop_frame runner retryon expectedreturn
      retries waitsecs name cmd retries none
      { es with status := setAttempts es.status name 0 }
    have h0 : getAttempts ({ es with status := setAttempts es.status name 0 }
        : ExecState).status name = 0 := by
      simp [getAttempts_setAttempts]
    rw [h0] at m2
    unfold execute
    dsimp only
    cases hloop : executeLoop runner retryon expectedreturn retries waitsecs
        name cmd retries none
        { es with status := setAttempts es.status name 0 } with
    | error esX =>
      rw [hloop] at m2
      simpa [runState, loopState] using m2
    | ok p =>
      obtain ⟨rc, es1⟩ := p
      rw [hloop] at m2
      have m2b : getAttempts es1.status name ≤ retries := by
        simpa [loopState] using m2
      dsimp only
      by_cases hrc : rc ≠ some expectedreturn
      · rw [if_pos hrc]
        simpa [runState, recordFailed, getAttempts] using m2b
      · rw [if_neg hrc]
        simpa [runState, recordSuccess, getAttempts] using m2b

/-- Witness for C9: the busy stub at `retries = 3`, starting from the fresh
state. -/
theorem attempts_monotone_bounded_witness :
    (getAttempts initState.status "fileserver" + 3 ≤ 3) ∧
    (getAttempts initState.status "fileserver" ≤ getAttempts (loopState
      (executeLoop busyRunner retryonMount 0 3 5 "fileserver" "mountcmd" 3
        none initState)).status "fileserver" ∧
     getAttempts (loopState (executeLoop busyRunner retryonMount 0 3 5
       "fileserver" "mountcmd" 3 none initState)).status "fileserver" ≤ 3) ∧
    getAttempts (runState (execute busyRunner retryonMount 0 3 5 "fileserver"
      "mountcmd" initState)).status "fileserver" ≤ 3 :=
  ⟨by decide,
    (attempts_monotone_bounded busyRunner retryonMount 0 3 5 "fileserver"
      "mountcmd").1 3 none initState (by decide),
    (attempts_monotone_bounded busyRunner retryonMount 0 3 5 "fileserver"
      "mountcmd").2 initState⟩

/-! ## C10: every completed execute records exactly one outcome -/

/-- C10: a completed `execute` call appends the name to exactly one of the
success list or the failed list (never both, never neither), and preserves
the invariant that the success and failed counts equal the lengths of the
corresponding lists. -/
theorem execute_records_exactly_one (runner : Nat → CmdResult)
    (retryon : List String) (expectedreturn : Int) (retries waitsecs : Nat)
    (name cmd : String) (es : ExecState)
    (hok : crashed (execute runner retryon expectedreturn retries waitsecs
      name cmd es) = false)
    (hs : es.status.successcount = es.status.success.length)
    (hf : es.status.failedcount = es.status.failed.length) :
    (((runState (execute runner retryon expectedreturn retries waitsecs name
        cmd es)).status.success = es.status.success ++ [name] ∧
      (runState (execute runner retryon expectedreturn retries waitsecs name
        cmd es)).status.failed = es.status.failed) ∨
     ((runState (execute runner retryon expectedreturn retries waitsecs name
        cmd es)).status.success = es.status.success ∧
      (runState (execute runner retryon expectedreturn retries waitsecs name
        cmd es)).status.failed = es.status.failed ++ [name])) ∧
    (runState (execute runner retryon expectedreturn retries waitsecs name
      cmd es)).status.successcount =
      (runState (execute runner retryon expectedreturn retries waitsecs name
        cmd es)).status.success.length ∧
    (runState (execute runner retryon expectedreturn retries waitsecs name
      cmd es)).status.failedcount =
      (runState (execute runner retryon expectedreturn retries waitsecs name
        cmd es)).status.failed.length := by
  obtain ⟨⟨f1, f2, f3, f4⟩, -, -, -⟩ := executeLoop_frame runner retryon
    expectedreturn retries waitsecs name cmd retries none
    { es with status := setAttempts es.status name 0 }
  unfold execute at hok ⊢
  dsimp only at hok ⊢
  cases hloop : executeLoop runner retryon expectedreturn retries waitsecs
      name cmd retries none
      { es with status := setAttempts es.status name 0 } with
  | error esX =>
    rw [hloop] at hok
    simp [crashed] at hok
  | ok p =>
    obtain ⟨rc, es1⟩ := p
    rw [hloop] at f1 f2 f3 f4
    have g1 : es1.status.success = es.status.success := by
      simpa [loopState, setAttempts] using f1
    have g2 : es1.status.failed = es.status.failed := by
      simpa [loopState, setAttempts] using f2
    have g3 : es1.status.successcount = es.status.successcount := by
      simpa [loopState, setAttempts] using f3
    have g4 : es1.status.failedcount = es.status.failedcount := by
      simpa [loopState, setAttempts] using f4
    dsimp only
    by_cases hrc : rc ≠ some expectedreturn
    · rw [if_pos hrc]
      refine ⟨Or.inr ⟨?_, ?_⟩, ?_, ?_⟩ <;>
        simp [runState, recordFailed, g1, g2, g3, g4, hs, hf]
    · rw [if_neg hrc]
      refine ⟨Or.inl ⟨?_, ?_⟩, ?_, ?_⟩ <;>
        simp [runState, recordSuccess, g1, g2, g3, g4, hs, hf]

/-- Witness for C10: the always-successful stub from the fresh state. -/
theorem execute_records_exactly_one_witness :
    crashed (execute okRunner retryonMount 0 3 5 "fileserver" "mountcmd"
      initState) = false ∧
    (((runState (execute okRunner retryonMount 0 3 5 "fileserver" "mountcmd"
        initState)).status.success = initState.status.success ++ ["fileserver"] ∧
      (runState (execute okRunner retryonMount 0 3 5 "fileserver" "mountcmd"
        initState)).status.failed = initState.status.failed) ∨
     ((runState (execute okRunner retryonMount 0 3 5 "fileserver" "mountcmd"
        initState)).status.success = initState.status.success ∧
      (runState (execute okRunner retryonMount 0 3 5 "fileserver" "mountcmd"
        initState)).status.failed = initState.status.failed ++ ["fileserver"])) :=
  ⟨by decide,
    (execute_records_exactly_one okRunner retryonMount 0 3 5 "fileserver"
      "mountcmd" initState (by decide) (by decide) (by decide)).1⟩

/-! ## C5: the process exit code -/

theorem statusInv_initStatus : statusInv initStatus := by
  simp [statusInv, initStatus]

theorem statusInv_setAttempts (st : Status) (name : String) (v : Nat)
    (h : statusInv st) : statusInv (setAttempts st name v) := by
  simpa [statusInv, setAttempts] using h

theorem executeLoop_statusInv (runner : Nat → CmdResult) (retryon : List String)
    (expectedreturn : Int) (retries waitsecs : Nat) (name cmd : String)
    (fuel : Nat) (rc : Option Int) (es : ExecState) (h : statusInv es.status) :
    statusInv (loopState (executeLoop runner retryon expectedreturn retries
      waitsecs name cmd fuel rc es)).status := by
  obtain ⟨⟨-, f2, -, -⟩, -, -, herr⟩ := executeLoop_frame runner retryon
    expectedreturn retries waitsecs name cmd fuel rc es
  rcases herr with ⟨he, hm⟩ | ⟨he, hm⟩
  · constructor
    · rw [he]
      exact h.1
    · rw [he, hm, f2]
      exact h.2
  · constructor
    · right
      exact he
    · rw [he, f2]
      constructor
      · intro h10
        exact absurd h10 one_ne_zero
      · rintro ⟨hms, -⟩
        exact absurd hms hm

theorem execute_statusInv (runner : Nat → CmdResult) (retryon : List String)
    (expectedreturn : Int) (retries waitsecs : Nat) (name cmd : String)
    (es : ExecState) (h : statusInv es.status) :
    statusInv (runState (execute runner retryon expectedreturn retries
      waitsecs name cmd es)).status := by
  have hloopInv := executeLoop_statusInv runner retryon expectedreturn retries
    waitsecs name cmd retries none
    { es with status := setAttempts es.status name 0 }
    (statusInv_setAttempts es.status name 0 h)
  unfold execute
  dsimp only
  cases hloop : executeLoop runner retryon expectedreturn retries waitsecs
      name cmd retries none
      { es with status := setAttempts es.status name 0 } with
  | error esX =>
    rw [hloop] at hloopInv
    simpa [runState, loopState] using hloopInv
  | ok p =>
    obtain ⟨rc, es1⟩ := p
    rw [hloop] at hloopInv
    have hinv1 : statusInv es1.status := by
      simpa [loopState] using hloopInv
    dsimp only
    by_cases hrc : rc ≠ some expectedreturn
    · rw [if_pos hrc]
      refine ⟨Or.inr rfl, ?_⟩
      simp [runState, recordFailed]
    · rw [if_neg hrc]
      simpa [statusInv, runState, recordSuccess] using hinv1

theorem mountLoop_statusInv (key : Fernet) (tab : Cifstab)
    (runner : Nat → CmdResult) (u : Bool) (retries waitsecs : Nat) :
    ∀ (names : List String) (es : ExecState), statusInv es.status →
      statusInv (runState (mountLoop key tab runner u retries waitsecs names
        es)).status := by
  intro names
  induction names with
  | nil =>
    intro es h
    simpa [mountLoop, runState] using h
  | cons name rest ih =>
    intro es h
    unfold mountLoop
    cases hcred : getcredentials key tab name with
    | error e =>
      simpa [runState] using h
    | ok o =>
      cases o with
      | none =>
        dsimp only
        apply ih
        constructor
        · right
          rfl
        · constructor
          · intro h10
            exact absurd h10 one_ne_zero
          · rintro ⟨hms, -⟩
            exact absurd hms (by simp [notFoundState])
      | some c =>
        dsimp only
        have hex := execute_statusInv runner
          (if u then retryonUmount else retryonMount) 0 retries waitsecs name
          (buildCmd u c) es h
        cases hexec : execute runner (if u then retryonUmount else retryonMount)
            0 retries waitsecs name (buildCmd u c) es with
        | error esX =>
          rw [hexec] at hex
          simpa [runState] using hex
        | ok es2 =>
          rw [hexec] at hex
          dsimp only
          apply ih
          simpa [runState] using hex

/-- C5 counterexample: an invocation whose only resolved target eventually
succeeds — a transient busy failure, then success on the retry — completes
with `succeeded == ["fileserver"]` and `failed == []`, yet exits with code
1: line 147 sets the error flag on every failing attempt, and it is never
cleared when the retry succeeds. -/
theorem checkstatus_exit_code_cex :
    (runState (mount idFernet tabFS flakyRunner margsFS 3 5
      initState)).status.success = ["fileserver"] ∧
    (runState (mount idFernet tabFS flakyRunner margsFS 3 5
      initState)).status.failed = [] ∧
    crashed (mount idFernet tabFS flakyRunner margsFS 3 5 initState) = false ∧
    checkstatus (runState (mount idFernet tabFS flakyRunner margsFS 3 5
      initState)).status = 1 := by
  decide

/-- C5 (amended): for a completed invocation the process exit code is 0 or
1; it is 0 exactly when no failure was ever recorded — every resolved name
was found and every command attempt succeeded (no failure message and no
failed name) — and 1 as soon as any attempt failed (even if a later retry
succeeded), any name was not found, or (separately) a permission error
occurred during bootstrap. -/
theorem checkstatus_exit_code (key : Fernet) (tab : Cifstab)
    (runner : Nat → CmdResult) (args : MountArgs) (retries waitsecs : Nat)
    (hok : crashed (mount key tab runner args retries waitsecs initState)
      = false) :
    (checkstatus (runState (mount key tab runner args retries waitsecs
        initState)).status = 0 ∨
      checkstatus (runState (mount key tab runner args retries waitsecs
        initState)).status = 1) ∧
    (checkstatus (runState (mount key tab runner args retries waitsecs
        initState)).status = 0 ↔
      (runState (mount key tab runner args retries waitsecs
        initState)).status.messages = [] ∧
      (runState (mount key tab runner args retries waitsecs
        initState)).status.failed = []) ∧
    (∀ n, n ∈ (runState (mount key tab runner args retries waitsecs
        initState)).status.failed →
      checkstatus (runState (mount key tab runner args retries waitsecs
        initState)).status = 1) ∧
    bootstrapExitCode true = some 1 := by
  have hinv := mountLoop_statusInv key tab runner args.u retries waitsecs
    (if args.all then listmounts tab else dedupFirst args.names) initState
    statusInv_initStatus
  have hmount : mount key tab runner args retries waitsecs initState =
      mountLoop key tab runner args.u retries waitsecs
        (if args.all then listmounts tab else dedupFirst args.names)
        initState := rfl
  rw [hmount]
  obtain ⟨hbool, hiff⟩ := hinv
  refine ⟨?_, ?_, ?_, rfl⟩
  · simpa [checkstatus] using hbool
  · simpa [checkstatus] using hiff
  · intro n hn
    rcases hbool with h0 | h1
    · exfalso
      have := (hiff.mp h0).2
      rw [this] at hn
      exact absurd hn (List.not_mem_nil n)
    · simpa [checkstatus] using h1

/-- Witness for C5 (amended): the always-successful stub on the scenario
store exits 0. -/
theorem checkstatus_exit_code_witness :
    crashed (mount idFernet tabFS okRunner margsFS 3 5 initState) = false ∧
    (checkstatus (runState (mount idFernet tabFS okRunner margsFS 3 5
        initState)).status = 0 ∨
      checkstatus (runState (mount idFernet tabFS okRunner margsFS 3 5
        initState)).status = 1) :=
  ⟨by decide,
    (checkstatus_exit_code idFernet tabFS okRunner margsFS 3 5 (by decide)).1⟩

/-! ## C3: a name absent from the store -/

theorem getcredentials_not_in (key : Fernet) (tab : Cifstab) (name : String)
    (h : name ∉ listmounts tab) :
    getcredentials key tab name = .ok none := by
  have hfil : tab.filter (fun r => r.1 = name) = [] := by
    rw [List.filter_eq_nil_iff]
    intro r hr
    simp only [listmounts, List.mem_map] at h
    simp only [decide_eq_true_eq]
    intro hname
    exact h ⟨r, hr, hname⟩
  simp [getcredentials, hfil]

/-- C3 counterexample: mounting the batch `["missing", "b"]` against a
store holding only `b` sets the error flag and records the not-found
message, and `b` still succeeds — but `"missing"` is NOT in the `failed`
list of the run status (the not-found path of lines 103–109 appends to
`messages` only, never to `failed`). -/
theorem mount_notfound_failed_list_cex :
    (runState (mount idFernet tabB okRunner margsMB 3 5
      initState)).status.error = 1 ∧
    "missing" ∉ (runState (mount idFernet tabB okRunner margsMB 3 5
      initState)).status.failed ∧
    (runState (mount idFernet tabB okRunner margsMB 3 5
      initState)).status.failed = [] ∧
    (runState (mount idFernet tabB okRunner margsMB 3 5
      initState)).status.success = ["b"] ∧
    (runState (mount idFernet tabB okRunner margsMB 3 5
      initState)).status.messages = [notFoundMessage "missing"] ∧
    (runState (mount idFernet tabB okRunner margsMB 3 5
      initState)).launches.map Prod.fst = ["b"] := by
  decide

/-- C3 (amended): when the batch contains a name absent from the store, the
aggregate error flag is set to 1 and the not-found message naming it is
appended to the messages of the run status (the name is not added to the
`failed` list); no external command is launched for that name, and
processing continues with the remaining names of the batch from exactly
that state. -/
theorem mount_notfound_behavior (key : Fernet) (tab : Cifstab)
    (runner : Nat → CmdResult) (u : Bool) (retries waitsecs : Nat)
    (name : String) (rest : List String) (es : ExecState)
    (habs : name ∉ listmounts tab) :
    mountLoop key tab runner u retries waitsecs (name :: rest) es =
      mountLoop key tab runner u retries waitsecs rest (notFoundState es name) ∧
    (notFoundState es name).status.error = 1 ∧
    (notFoundState es name).status.messages =
      es.status.messages ++ [notFoundMessage name] ∧
    (notFoundState es name).status.failed = es.status.failed ∧
    (notFoundState es name).launches = es.launches := by
  refine ⟨?_, rfl, rfl, rfl, rfl⟩
  conv_lhs => unfold mountLoop
  rw [getcredentials_not_in key tab name habs]

/-- Witness for C3 (amended): the `["missing", "b"]` batch against the
store holding only `b`. -/
theorem mount_notfound_behavior_witness :
    "missing" ∉ listmounts tabB ∧
    mountLoop idFernet tabB okRunner false 3 5 ["missing", "b"] initState =
      mountLoop idFernet tabB okRunner false 3 5 ["b"]
        (notFoundState initState "missing") :=
  ⟨by decide,
    (mount_notfound_behavior idFernet tabB okRunner false 3 5 "missing" ["b"]
      initState (by decide)).1⟩

/-! ## C6: encryption round trip -/

/-- C6: for every field value `v` (a Lean `String` is precisely a sequence
of Unicode scalar values, i.e. a UTF-8-encodable Python string), decrypting
the encryption of `v` under the process-wide symmetric key returns `v`. -/
theorem decrypt_encrypt_roundtrip (key : Fernet) (v : String) :
    decrypt key (encrypt key v) = some v := by
  unfold decrypt encrypt
  rw [key.dec_enc]
  dsimp only
  rw [utf8Decode_utf8Encode]
  rfl

/-! ## C7: duplicate add leaves the store unchanged -/

/-- C7: adding an entry whose name already exists in the store takes the
duplicate-name error path (`sqlite3.IntegrityError`, reported to the user)
and returns the store byte-for-byte unchanged — in particular the existing
row under that name is untouched. -/
theorem addmount_duplicate_unchanged (key : Fernet) (tab : Cifstab)
    (args : AddArgs) (password : String) (h : args.name ∈ listmounts tab) :
    addmount key tab args password = (tab, true) := by
  have hmem : tab.any (fun r => r.1 = args.name) = true := by
    rw [List.any_eq_true]
    simp only [listmounts, List.mem_map] at h
    obtain ⟨r, hr, hname⟩ := h
    exact ⟨r, hr, by simp [hname]⟩
  unfold addmount cifstabInsert
  simp [hmem]

/-- Witness for C7: re-adding `fileserver` to the scenario store. -/
theorem addmount_duplicate_unchanged_witness :
    "fileserver" ∈ listmounts tabFS ∧
    addmount idFernet tabFS argsFS "secret" = (tabFS, true) :=
  ⟨by decide,
    addmount_duplicate_unchanged idFernet tabFS argsFS "secret" (by decide)⟩

/-! ## C8: de-duplication of explicit name lists -/

theorem foldl_keepFirsts (l : List String) : ∀ acc : List String,
    l.foldl (fun acc n => if n ∈ acc then acc else acc ++ [n]) acc =
      acc ++ keepFirsts acc l := by
  induction l with
  | nil =>
    intro acc
    simp [keepFirsts]
  | cons x xs ih =>
    intro acc
    by_cases hx : x ∈ acc
    · simp [keepFirsts, hx, ih]
    · simp only [List.foldl_cons, keepFirsts, hx, if_false]
      rw [ih (acc ++ [x])]
      simp

theorem dedupFirst_eq_keepFirsts (l : List String) :
    dedupFirst l = keepFirsts [] l := by
  unfold dedupFirst
  rw [foldl_keepFirsts]
  simp

theorem keepFirsts_mem (l : List String) : ∀ (seen : List String) (x : String),
    x ∈ keepFirsts seen l ↔ x ∈ l ∧ x ∉ seen := by
  induction l with
  | nil =>
    intro seen x
    simp [keepFirsts]
  | cons y ys ih =>
    intro seen x
    unfold keepFirsts
    by_cases hy : y ∈ seen
    · rw [if_pos hy, ih]
      constructor
      · rintro ⟨h1, h2⟩
        exact ⟨List.mem_cons_of_mem _ h1, h2⟩
      · rintro ⟨h1, h2⟩
        rcases List.mem_cons.mp h1 with rfl | h1b
        · exact absurd hy h2
        · exact ⟨h1b, h2⟩
    · rw [if_neg hy]
      constructor
      · intro hx
        rcases List.mem_cons.mp hx with rfl | hxb
        · exact ⟨List.mem_cons_self _ _, hy⟩
        · obtain ⟨h1, h2⟩ := (ih (seen ++ [y]) x).mp hxb
          simp only [List.mem_append, List.mem_singleton] at h2
          push_neg at h2
          exact ⟨List.mem_cons_of_mem _ h1, h2.1⟩
      · rintro ⟨h1, h2⟩
        rcases List.mem_cons.mp h1 with rfl | h1b
        · exact List.mem_cons_self _ _
        · by_cases hxy : x = y
          · subst hxy
            exact List.mem_cons_self _ _
          · apply List.mem_cons_of_mem
            refine (ih (seen ++ [y]) x).mpr ⟨h1b, ?_⟩
            simp [List.mem_append, h2, hxy]

theorem keepFirsts_nodup (l : List String) : ∀ seen : List String,
    (keepFirsts seen l).Nodup := by
  induction l with
  | nil =>
    intro seen
    simp [keepFirsts]
  | cons y ys ih =>
    intro seen
    unfold keepFirsts
    by_cases hy : y ∈ seen
    · rw [if_pos hy]
      exact ih seen
    · rw [if_neg hy]
      refine List.nodup_cons.mpr ⟨?_, ih (seen ++ [y])⟩
      intro hc
      have := (keepFirsts_mem ys (seen ++ [y]) y).mp hc
      simp [List.mem_append] at this

/-- C8: the explicit name list given to `mount` is de-duplicated before
processing, preserving first-occurrence order: `dedupFirst` coincides with
the left-to-right keep-first-occurrence scan, is duplicate-free, keeps
exactly the names of the input — and mounting `["a", "a", "b"]` executes
the mount operation once for `a` and once for `b`, in that order. -/
theorem mount_dedup_first_occurrence :
    (∀ l : List String, dedupFirst l = keepFirsts [] l) ∧
    (∀ l : List String, (dedupFirst l).Nodup) ∧
    (∀ (l : List String) (x : String), x ∈ dedupFirst l ↔ x ∈ l) ∧
    dedupFirst ["a", "a", "b"] = ["a", "b"] ∧
    (runState (mount idFernet tabAB okRunner margsAAB 3 5
      initState)).launches.map Prod.fst = ["a", "b"] ∧
    (runState (mount idFernet tabAB okRunner margsAAB 3 5
      initState)).status.success = ["a", "b"] := by
  refine ⟨dedupFirst_eq_keepFirsts, ?_, ?_, by decide, by decide, by decide⟩
  · intro l
    rw [dedupFirst_eq_keepFirsts]
    exact keepFirsts_nodup l []
  · intro l x
    rw [dedupFirst_eq_keepFirsts, keepFirsts_mem]
    simp

end Cifscloak
